import Mathlib

/-!
Shallow embedding of the check-cx health monitor (TypeScript) and proofs
about its core logic.

Modelling conventions, applied uniformly:
- ISO-8601 timestamp strings are modelled by their epoch-millisecond value
  (`Nat`); every comparison the code performs on such strings goes through
  `new Date(s).getTime()`, so the embedding compares the numbers directly.
- JavaScript `string | null` fields are `Option String`; the JS "falsy"
  test (`!x`, `x || y`) treats both `null` and `""` as absent, which the
  helpers `jsOrStr` / `jsFalsyStr` reproduce.
- Promises are modelled by their resolved values; network I/O performed by
  a function becomes an explicit argument describing its outcome.
- `Array.prototype.sort` (stable since ES2019) with comparator
  `(a, b) => key b - key a` is modelled by `List.insertionSort` with the
  relation `key b ≤ key a`: for a total preorder a stable sort's output is
  uniquely determined, and `List.insertionSort` is stable.
-/

namespace CheckCx

/-- JS `a || b` for strings: `b` when `a` is falsy (empty). -/
def jsOrStr (a b : String) : String :=
  if a = "" then b else a

/-- JS `a || b` where `a : string | null` and `b` is a string. -/
def jsOrOptStr (a : Option String) (b : String) : String :=
  match a with
  | none => b
  | some s => jsOrStr s b

/-- JS `a || null` for `a : string | null`: `""` collapses to `null`. -/
def jsFalsyStr (a : Option String) : Option String :=
  match a with
  | none => none
  | some s => if s = "" then none else some s

/-- `lib/types`: ProviderType. -/
inductive ProviderType
  | openai
  | gemini
  | anthropic
deriving DecidableEq, Repr

/-- `lib/types`: HealthStatus. -/
inductive HealthStatus
  | operational
  | degraded
  | failed
  | maintenance
deriving DecidableEq, Repr

/-- `lib/types`: OfficialHealthStatus. -/
inductive OfficialHealthStatus
  | operational
  | degraded
  | down
  | unknown
deriving DecidableEq, Repr

/-- `lib/types`: OfficialStatusResult. -/
structure OfficialStatusResult where
  status : OfficialHealthStatus
  message : String
  checkedAt : Nat
  affectedComponents : Option (List String) := none
deriving DecidableEq, Repr

/-- `lib/types`: CheckResult (one probe outcome / history record). -/
structure CheckResult where
  id : String
  name : String
  type : ProviderType
  endpoint : Option String
  model : String
  status : HealthStatus
  latencyMs : Option Nat
  pingLatencyMs : Option Nat
  checkedAt : Nat
  message : String
  groupName : Option String := none
  officialStatus : Option OfficialStatusResult := none
deriving DecidableEq, Repr

/-- `lib/types`: ProviderConfig as produced by `loadProviderConfigsFromDB`. -/
structure ProviderConfig where
  id : String
  name : String
  type : ProviderType
  endpoint : Option String
  model : String
  apiKey : String
  is_maintenance : Bool
  requestHeaders : Option (List (String × String)) := none
  metadata : Option (List (String × String)) := none
  groupName : Option String := none
deriving DecidableEq, Repr

/-- `lib/types`: HistorySnapshot = Record<string, CheckResult[]>; a JS
object with string keys is an insertion-ordered association list. -/
abbrev HistorySnapshot := List (String × List CheckResult)

/-- `lib/types`: RefreshMode. -/
inductive RefreshMode
  | always
  | missing
  | never
deriving DecidableEq, Repr

/-- `lib/types`: UNGROUPED_KEY sentinel. -/
def UNGROUPED_KEY : String := "__ungrouped__"

/-- `lib/types`: UNGROUPED_DISPLAY_NAME. -/
def UNGROUPED_DISPLAY_NAME : String := "未分组"

/-! ### String helpers shared by several modules

`String.prototype.toLowerCase` / regex `/i` matching is modelled with
`Char.toLower` (the inputs the code matches against are ASCII). -/

/-- Character-list lowering, modelling `toLowerCase` on the ASCII range. -/
def lowerChars (cs : List Char) : List Char :=
  cs.map Char.toLower

/-- String lowering. -/
def lowerStr (s : String) : String :=
  String.mk (lowerChars s.toList)

/-- Contiguous-sublist test: JS `String.prototype.includes`. -/
def containsSub : List Char → List Char → Bool
  | l@(_ :: rest), pat => pat.isPrefixOf l || containsSub rest pat
  | [], pat => pat.isEmpty

/-- `s.includes(pat)` on strings (case-sensitive, like JS). -/
def containsSubStr (s pat : String) : Bool :=
  containsSub s.toList pat.toList

/-- Case-insensitive containment: models `/pat/i.test(s)` for a literal
pattern `pat` (given here already lowercased). -/
def testCI (s : String) (patLower : String) : Bool :=
  containsSub (lowerChars s.toList) patLower.toList

/-- JS regex word character (`\w` = `[A-Za-z0-9_]`). -/
def isWordChar (c : Char) : Bool :=
  c.isAlphanum || c = '_'

/-- A `\b` word boundary holds before a word character when the preceding
character (if any) is not a word character. -/
def boundaryOk (prev : Option Char) : Bool :=
  match prev with
  | none => true
  | some c => !isWordChar c

/-- Scan for `/\bpat/i` where `pat` (given lowercased) starts with a word
character: some position has a boundary before it and matches `pat`. -/
def goBoundarySub (patLower : List Char) : Option Char → List Char → Bool
  | prev, l@(c :: rest) =>
    (boundaryOk prev && patLower.isPrefixOf (lowerChars l)) ||
      goBoundarySub patLower (some c) rest
  | prev, [] => boundaryOk prev && patLower.isEmpty

/-- `/\bpat/i.test(s)`. -/
def hasBoundarySub (s : String) (patLower : String) : Bool :=
  goBoundarySub patLower.toList none s.toList

/-- Head of the list matches `o[1-9]` case-insensitively. -/
def oDigitAt : List Char → Bool
  | c :: d :: _ => Char.toLower c = 'o' && ('1' ≤ d && d ≤ '9')
  | _ => false

/-- Scan for `/\bo[1-9]/i`. -/
def goODigit : Option Char → List Char → Bool
  | prev, l@(c :: rest) =>
    (boundaryOk prev && oDigitAt l) || goODigit (some c) rest
  | _, [] => false

/-- `/\bo[1-9]/i.test(s)`. -/
def hasBoundaryODigit (s : String) : Bool :=
  goODigit none s.toList

/-- JS `String.prototype.trim` on a character list. -/
def trimChars (cs : List Char) : List Char :=
  ((cs.dropWhile Char.isWhitespace).reverse.dropWhile Char.isWhitespace).reverse

end CheckCx

namespace CheckCx.StreamCheck

/-! ### `lib/providers/stream-check.ts` -/

/-- Overall probe deadline (ms). -/
def DEFAULT_TIMEOUT_MS : Nat := 45000

/-- Latency threshold (ms) separating `operational` from `degraded`. -/
def DEGRADED_THRESHOLD_MS : Nat := 6000

/-- The observable outcome of the `fetch` + stream-parse section of
`runStreamCheck` (its only I/O):
* `httpError`: `response.ok` false — HTTP status, error body text, and the
  elapsed time when the response headers arrived;
* `streamOk`: 2xx response whose stream was parsed — total elapsed time;
* `thrown`: any exception reaching the `catch` (network failure, abort via
  the 45 s timer, empty body, parse error) with its `name` and `message`. -/
inductive FetchOutcome
  | httpError (status : Nat) (errorBody : String) (elapsedMs : Nat)
  | streamOk (elapsedMs : Nat)
  | thrown (name : String) (msg : String)
deriving DecidableEq, Repr

/-- `StreamCheckParams` (the `init`, `parseStream` and `headers` fields only
shape the request, whose result is the `FetchOutcome` argument). -/
structure StreamCheckParams where
  url : String
  displayEndpoint : Option String := none
deriving DecidableEq, Repr

/-- Whether the probe's `setTimeout(() => controller.abort(), timeoutMs)`
has fired after `elapsedMs` of waiting. -/
def probeTimesOut (timeoutMs elapsedMs : Nat) : Bool :=
  timeoutMs ≤ elapsedMs

/-- `runStreamCheck`. `pingLatencyMs` is the resolved value of the
concurrent `measureEndpointPing`, `now` the wall clock for `checkedAt`,
and `extractMessage` the body-to-message helper from `lib/utils` (a
collaborator of this file; `none`/`""` fall back to `HTTP <status>`). -/
def runStreamCheck (config : ProviderConfig) (params : StreamCheckParams)
    (outcome : FetchOutcome) (pingLatencyMs : Option Nat) (now : Nat)
    (extractMessage : String → Option String) : CheckResult :=
  match outcome with
  | .httpError status errorBody elapsedMs =>
    { id := config.id
      name := config.name
      type := config.type
      endpoint := some (jsOrOptStr params.displayEndpoint params.url)
      model := config.model
      status := .failed
      latencyMs := some elapsedMs
      pingLatencyMs := pingLatencyMs
      checkedAt := now
      message :=
        jsOrStr ((extractMessage errorBody).getD ("")) ("HTTP " ++ toString status) }
  | .streamOk elapsedMs =>
    let status : HealthStatus :=
      if elapsedMs ≤ DEGRADED_THRESHOLD_MS then .operational else .degraded
    let message :=
      if status = .degraded then "响应成功但耗时 " ++ toString elapsedMs ++ "ms"
      else "流式响应正常 (" ++ toString elapsedMs ++ "ms)"
    { id := config.id
      name := config.name
      type := config.type
      endpoint := some (jsOrOptStr params.displayEndpoint params.url)
      model := config.model
      status := status
      latencyMs := some elapsedMs
      pingLatencyMs := pingLatencyMs
      checkedAt := now
      message := message }
  | .thrown name msg =>
    let isAbortError : Bool :=
      name = "AbortError" || testCI msg ("request was aborted")
    let message := if isAbortError then "请求超时" else jsOrStr msg ("未知错误")
    { id := config.id
      name := config.name
      type := config.type
      endpoint := some (jsOrOptStr params.displayEndpoint params.url)
      model := config.model
      status := .failed
      latencyMs := none
      pingLatencyMs := pingLatencyMs
      checkedAt := now
      message := message }

end CheckCx.StreamCheck

namespace CheckCx.OpenAIProvider

/-! ### The OpenAI provider (`lib/providers/openai.ts`) -/

/-- Overall probe deadline (ms) in the OpenAI provider file. -/
def DEFAULT_TIMEOUT_MS : Nat := 15000

/-- Latency threshold (ms). -/
def DEGRADED_THRESHOLD_MS : Nat := 6000

/-- EFFORT_ALIAS_MAP. -/
def EFFORT_ALIAS_MAP : List (String × String) :=
  [("mini", "minimal"), ("minimal", "minimal"), ("low", "low"),
   ("medium", "medium"), ("high", "high")]

/-- The five effort words of the directive regex alternation
`(mini|minimal|low|medium|high)`, as lowercase character lists. -/
def effortWords : List (List Char) :=
  ["mini".toList, "minimal".toList, "low".toList, "medium".toList, "high".toList]

/-- The separator class `[@#]`. -/
def isSep (c : Char) : Bool :=
  c = '@' || c = '#'

/-- JS line terminators, which `.` does not match. -/
def isLineTerm (c : Char) : Bool :=
  c = '\n' || c = '\r' || c.toNat = 0x2028 || c.toNat = 0x2029

/-- The whole remaining input matches the effort alternation
case-insensitively; returns the lowercased effort on success. -/
def effortOf (rest : List Char) : Option (List Char) :=
  if effortWords.contains (lowerChars rest) then some (lowerChars rest) else none

/-- Lazy left-to-right matching of `/^(.*?)[@#](mini|minimal|low|medium|high)$/i`:
the shortest base whose following character is a separator with the rest of
the input an effort word wins; `.*?` cannot cross a line terminator.
Returns (captured base, lowercased effort). -/
def scanDirective : List Char → Option (List Char × List Char)
  | [] => none
  | c :: rest =>
    match (if isSep c then effortOf rest else none) with
    | some e => some ([], e)
    | none =>
      if isLineTerm c then none
      else
        match scanDirective rest with
        | some (b, e) => some (c :: b, e)
        | none => none

/-- REASONING_MODEL_HINTS:
`[/codex/i, /\bgpt-5/i, /\bo[1-9]/i, /deepseek-r1/i, /qwq/i].some(test)`. -/
def reasoningHint (trimmed : String) : Bool :=
  testCI trimmed ("codex") ||
  hasBoundarySub trimmed ("gpt-5") ||
  hasBoundaryODigit trimmed ||
  testCI trimmed ("deepseek-r1") ||
  testCI trimmed ("qwq")

/-- `EFFORT_ALIAS_MAP[effortRaw.toLowerCase()]` (the key is always present
when called, so the `getD` default is never reached). -/
def aliasLookup (effLower : List Char) : String :=
  (EFFORT_ALIAS_MAP.lookup (String.mk effLower)).getD (String.mk effLower)

/-- `resolveModelPreferences`: returns (requestModel, reasoningEffort?). -/
def resolveModelPreferences (model : String) : String × Option String :=
  let trimmed := trimChars model.toList
  if trimmed.isEmpty then (model, none)
  else
    match scanDirective trimmed with
    | some (base, effLower) =>
      let baseTrimmed := trimChars base
      let normalizedBase := if baseTrimmed.isEmpty then trimmed else baseTrimmed
      (String.mk normalizedBase, some (aliasLookup effLower))
    | none =>
      if reasoningHint (String.mk trimmed) then (String.mk trimmed, some ("medium"))
      else (String.mk trimmed, none)

end CheckCx.OpenAIProvider

namespace CheckCx.AnthropicSdkProvider

/-! ### `lib/providers/anthropic.ts` (current, SDK-based) -/

/-- Overall probe deadline (ms). -/
def DEFAULT_TIMEOUT_MS : Nat := 45000

/-- Latency threshold (ms). -/
def DEGRADED_THRESHOLD_MS : Nat := 6000

end CheckCx.AnthropicSdkProvider

namespace CheckCx.AnthropicLegacyProvider

/-! ### The older copy of the Anthropic provider -/

/-- Overall probe deadline (ms) in the superseded Anthropic provider file. -/
def DEFAULT_TIMEOUT_MS : Nat := 15000

end CheckCx.AnthropicLegacyProvider

namespace CheckCx.HealthSnapshotService

/-! ### `lib/core/health-snapshot-service.ts` -/

/-- `lib/types`: PingCacheEntry; the pending `inflight` promise is modelled
by the `HistorySnapshot` it resolves to. -/
structure PingCacheEntry where
  lastPingAt : Nat
  inflight : Option HistorySnapshot := none
  history : Option HistorySnapshot := none
deriving DecidableEq

/-- Which branch the `refreshHistory` closure inside `loadSnapshotForScope`
takes, with the value it returns:
* `emptySnap`: `scope.activeConfigs.length === 0` — returns `{}`;
* `cachedHistory h`: freshness window — returns the cached `history`;
* `awaitedInflight h`: request coalescing — awaits the pending inflight
  promise and returns its result;
* `installedInflight`: installs a fresh inflight refresh (probe batch +
  append + re-read). -/
inductive RefreshOutcome
  | emptySnap
  | cachedHistory (h : HistorySnapshot)
  | awaitedInflight (h : HistorySnapshot)
  | installedInflight
deriving DecidableEq

/-- The branch decision of `refreshHistory` (`loadSnapshotForScope`'s
refresh path), as a function of the scope's active-config count, the wall
clock, the poll interval and the scope's cache entry. `now - lastPingAt`
is computed in `Int` like the JS number subtraction. -/
def refreshHistory (activeConfigCount : Nat) (now pollIntervalMs : Nat)
    (entry : PingCacheEntry) : RefreshOutcome :=
  if activeConfigCount = 0 then .emptySnap
  else
    match entry.history with
    | some h =>
      if (now : Int) - (entry.lastPingAt : Int) < (pollIntervalMs : Int) then
        .cachedHistory h
      else
        match entry.inflight with
        | some p => .awaitedInflight p
        | none => .installedInflight
    | none =>
      match entry.inflight with
      | some p => .awaitedInflight p
      | none => .installedInflight

/-- The snapshot `refreshHistory` resolves to; a newly installed inflight
resolves to the history produced by the probe batch (`probeHistory`). -/
def refreshResultValue (outcome : RefreshOutcome)
    (probeHistory : HistorySnapshot) : HistorySnapshot :=
  match outcome with
  | .emptySnap => []
  | .cachedHistory h => h
  | .awaitedInflight h => h
  | .installedInflight => probeHistory

/-- `loadSnapshotForScope`: `storedHistory` is the result of the initial
`readHistoryForScope`, `probeHistory` the history a fresh refresh would
produce. -/
def loadSnapshotForScope (allowedIdsCount activeConfigCount : Nat)
    (now pollIntervalMs : Nat) (entry : PingCacheEntry)
    (storedHistory probeHistory : HistorySnapshot)
    (refreshMode : RefreshMode) : HistorySnapshot :=
  if allowedIdsCount = 0 then []
  else
    match refreshMode with
    | .always =>
      refreshResultValue (refreshHistory activeConfigCount now pollIntervalMs entry)
        probeHistory
    | .missing =>
      if 0 < activeConfigCount ∧ storedHistory.isEmpty then
        refreshResultValue (refreshHistory activeConfigCount now pollIntervalMs entry)
          probeHistory
      else storedHistory
    | .never => storedHistory

/-- Descending-`checkedAt` ordering used by every
`(a, b) => new Date(b.checkedAt).getTime() - new Date(a.checkedAt).getTime()`
sort comparator. -/
def byCheckedAtDesc (a b : CheckResult) : Prop :=
  b.checkedAt ≤ a.checkedAt

instance : DecidableRel byCheckedAtDesc :=
  fun a b => inferInstanceAs (Decidable (b.checkedAt ≤ a.checkedAt))

instance : IsTotal CheckResult byCheckedAtDesc :=
  ⟨fun a b => Nat.le_total b.checkedAt a.checkedAt⟩

instance : IsTrans CheckResult byCheckedAtDesc :=
  ⟨fun _ _ _ h1 h2 => Nat.le_trans h2 h1⟩

/-- `attachOfficialStatus`: joins the cached official status by provider
type onto a result (`official` is the poller cache lookup). -/
def attachOfficialStatus (official : ProviderType → Option OfficialStatusResult)
    (result : CheckResult) : CheckResult :=
  match official result.type with
  | none => result
  | some st => { result with officialStatus := some st }

/-- `lib/types`: ProviderTimeline. -/
structure ProviderTimeline where
  id : String
  items : List CheckResult
  latest : CheckResult
deriving DecidableEq

/-- Timeline name ordering for the final
`.sort((a, b) => a.latest.name.localeCompare(b.latest.name))`. -/
def byTimelineNameLe (a b : ProviderTimeline) : Prop :=
  a.latest.name ≤ b.latest.name

instance : DecidableRel byTimelineNameLe :=
  fun a b => inferInstanceAs (Decidable (a.latest.name ≤ b.latest.name))

instance : IsTotal ProviderTimeline byTimelineNameLe :=
  ⟨fun a b => le_total a.latest.name b.latest.name⟩

instance : IsTrans ProviderTimeline byTimelineNameLe :=
  ⟨fun _ _ _ h1 h2 => le_trans h1 h2⟩

/-- `createMaintenanceTimeline` (`now` models `new Date().toISOString()`). -/
def createMaintenanceTimeline (official : ProviderType → Option OfficialStatusResult)
    (now : Nat) (config : ProviderConfig) : ProviderTimeline :=
  let base : CheckResult :=
    { id := config.id
      name := config.name
      type := config.type
      endpoint := config.endpoint
      model := config.model
      status := .maintenance
      latencyMs := none
      pingLatencyMs := none
      checkedAt := now
      message := "配置处于维护模式"
      groupName := jsFalsyStr config.groupName }
  { id := config.id
    items := []
    latest := attachOfficialStatus official base }

/-- `buildProviderTimelines`. -/
def buildProviderTimelines (history : HistorySnapshot)
    (maintenanceConfigs : List ProviderConfig)
    (official : ProviderType → Option OfficialStatusResult)
    (now : Nat) : List ProviderTimeline :=
  let mapped := history.filterMap (fun p =>
    if p.2.isEmpty then none
    else
      match List.insertionSort byCheckedAtDesc p.2 with
      | [] => none
      | latest0 :: rest =>
        some { id := p.1
               items := latest0 :: rest
               latest := attachOfficialStatus official latest0 })
  let maintenanceTimelines := maintenanceConfigs.map (createMaintenanceTimeline official now)
  List.insertionSort byTimelineNameLe (mapped ++ maintenanceTimelines)

end CheckCx.HealthSnapshotService

namespace CheckCx.History

/-! ### `lib/database/history.ts` -/

open CheckCx.HealthSnapshotService (byCheckedAtDesc)

/-- Per-provider history cap. -/
def MAX_POINTS_PER_PROVIDER : Nat := 60

/-- A row returned by the `get_recent_check_history` stored procedure
(`checked_at` as epoch ms, `status` already narrowed to the enum as the
TS cast does). -/
structure RpcHistoryRow where
  config_id : String
  status : HealthStatus
  latency_ms : Option Nat
  ping_latency_ms : Option Nat
  checked_at : Nat
  message : Option String
  name : String
  type : ProviderType
  model : String
  endpoint : Option String
  group_name : Option String
deriving DecidableEq

/-- The `CheckResult` built from one row inside `mapRowsToSnapshot`
(`row.endpoint ?? ""`, `row.message ?? ""`). -/
def rowToResult (row : RpcHistoryRow) : CheckResult :=
  { id := row.config_id
    name := row.name
    type := row.type
    endpoint := some (row.endpoint.getD (""))
    model := row.model
    status := row.status
    latencyMs := row.latency_ms
    pingLatencyMs := row.ping_latency_ms
    checkedAt := row.checked_at
    message := row.message.getD ("")
    groupName := row.group_name }

/-- `history[result.id].push(result)` on a JS object: append to the key's
bucket, creating the key (in insertion order) when absent. -/
def pushRow : HistorySnapshot → String → CheckResult → HistorySnapshot
  | [], id, r => [(id, [r])]
  | (k, l) :: rest, id, r =>
    if k = id then (k, l ++ [r]) :: rest else (k, l) :: pushRow rest id r

/-- `mapRowsToSnapshot`: bucket rows by `config_id`, then per key sort
descending by `checkedAt` and slice to 60. -/
def mapRowsToSnapshot (rows : List RpcHistoryRow) : HistorySnapshot :=
  if rows.isEmpty then []
  else
    let history := rows.foldl (fun acc row => pushRow acc row.config_id (rowToResult row)) []
    history.map (fun p =>
      (p.1, (List.insertionSort byCheckedAtDesc p.2).take MAX_POINTS_PER_PROVIDER))

/-- One record of the `records` array `SnapshotStore.append` inserts. -/
structure HistoryRecord where
  config_id : String
  status : HealthStatus
  latency_ms : Option Nat
  ping_latency_ms : Option Nat
  checked_at : Nat
  message : String
deriving DecidableEq

/-- `append`'s mapping from a `CheckResult` to an insert record. -/
def toRecord (result : CheckResult) : HistoryRecord :=
  { config_id := result.id
    status := result.status
    latency_ms := result.latencyMs
    ping_latency_ms := result.pingLatencyMs
    checked_at := result.checkedAt
    message := result.message }

/-- A database operation issued by the store. -/
inductive DbOp
  | insert (records : List HistoryRecord)
  | pruneHistoryRpc (limit_per_config : Nat)
deriving DecidableEq

/-- The sequence of store operations `SnapshotStore.append` performs:
nothing for an empty batch; otherwise one insert, followed by
`pruneInternal` (the `prune_check_history` RPC) unless the insert errored
(`insertFailed`), in which case append logs and returns. -/
def appendOps (results : List CheckResult) (insertFailed : Bool) : List DbOp :=
  if results.length = 0 then []
  else
    DbOp.insert (results.map toRecord) ::
      (if insertFailed then [] else [DbOp.pruneHistoryRpc MAX_POINTS_PER_PROVIDER])

end CheckCx.History

namespace CheckCx.AnthropicStatus

/-! ### `lib/official-status/anthropic.ts` -/

/-- One entry of `AnthropicSummaryResponse.components`. -/
structure AnthropicComponent where
  name : String
  status : String
deriving DecidableEq

/-- `AnthropicSummaryResponse.status`. -/
structure AnthropicSummaryStatus where
  indicator : String
  description : String
deriving DecidableEq

/-- The fields of `AnthropicSummaryResponse` the parser reads. -/
structure AnthropicSummaryResponse where
  components : List AnthropicComponent
  status : AnthropicSummaryStatus
deriving DecidableEq

/-- The body of the per-component loop of `parseAnthropicSummary`,
accumulating (affectedComponents, hasDownComponents, hasDegradedComponents). -/
def componentStep (acc : List String × Bool × Bool) (component : AnthropicComponent) :
    List String × Bool × Bool :=
  let compStatus := lowerStr component.status
  if compStatus ≠ "operational" then
    let affected := acc.1 ++ [component.name]
    if containsSubStr compStatus ("outage") || containsSubStr compStatus ("down") ||
        compStatus = "major_outage" then
      (affected, true, acc.2.2)
    else if containsSubStr compStatus ("degraded") || compStatus = "degraded_performance" then
      (affected, acc.2.1, true)
    else
      (affected, acc.2.1, acc.2.2)
  else acc

/-- `parseAnthropicSummary`. -/
def parseAnthropicSummary (data : AnthropicSummaryResponse) (checkedAt : Nat) :
    OfficialStatusResult :=
  let indicator := lowerStr data.status.indicator
  let description := data.status.description
  let folded := data.components.foldl componentStep ([], false, false)
  let affectedComponents := folded.1
  let hasDownComponents := folded.2.1
  let hasDegradedComponents := folded.2.2
  let status : OfficialHealthStatus :=
    if indicator = "none" ∧ affectedComponents.length = 0 then .operational
    else if indicator = "critical" ∨ indicator = "major" ∨ hasDownComponents then .down
    else if indicator = "minor" ∨ hasDegradedComponents then .degraded
    else .unknown
  let message :=
    if 0 < affectedComponents.length then
      let componentList := String.intercalate (", ") (affectedComponents.take 3)
      let suffix :=
        if 3 < affectedComponents.length then
          " 等 " ++ toString affectedComponents.length ++ " 个组件"
        else ""
      componentList ++ suffix ++ " 受影响"
    else description
  { status := status
    message := jsOrStr message ("未知状态")
    checkedAt := checkedAt
    affectedComponents :=
      if 0 < affectedComponents.length then some affectedComponents else none }

end CheckCx.AnthropicStatus

namespace CheckCx.ConfigLoader

/-! ### `lib/database/config-loader.ts` -/

/-- The columns of `check_configs` the loader selects. -/
structure CheckConfigRow where
  id : String
  name : String
  type : ProviderType
  model : String
  endpoint : Option String
  api_key : String
  is_maintenance : Bool
  request_header : Option (List (String × String))
  metadata : Option (List (String × String))
  group_name : Option String
deriving DecidableEq

/-- The row-to-config mapping in `loadProviderConfigsFromDB`
(`request_header || null`, `metadata || null`, `group_name || null`). -/
def mapConfigRow (row : CheckConfigRow) : ProviderConfig :=
  { id := row.id
    name := row.name
    type := row.type
    endpoint := row.endpoint
    model := row.model
    apiKey := row.api_key
    is_maintenance := row.is_maintenance
    requestHeaders := row.request_header
    metadata := row.metadata
    groupName := jsFalsyStr row.group_name }

/-- `loadProviderConfigsFromDB` on a successfully fetched row set. -/
def loadProviderConfigsFromDB (rows : List CheckConfigRow) : List ProviderConfig :=
  rows.map mapConfigRow

end CheckCx.ConfigLoader

namespace CheckCx.GroupData

/-! ### `lib/core/group-data.ts` and the `/api/group/[groupName]` route -/

open CheckCx.HealthSnapshotService

/-- `GroupDashboardData`. -/
structure GroupDashboardData where
  groupName : String
  displayName : String
  providerTimelines : List ProviderTimeline
  lastUpdated : Option Nat
  total : Nat
  pollIntervalLabel : String
  pollIntervalMs : Nat
  generatedAt : Nat
deriving DecidableEq

/-- The JS group filter predicate inside `loadGroupDashboardData`:
for the ungrouped sentinel, `!config.groupName` (falsy: null or empty);
otherwise `config.groupName === targetGroupName`. -/
def groupFilter (targetGroupName : String) (config : ProviderConfig) : Bool :=
  if targetGroupName = UNGROUPED_KEY then
    match config.groupName with
    | none => true
    | some s => s = ""
  else config.groupName = some targetGroupName

/-- `loadGroupDashboardData`. The snapshot load for the scope is modelled
by the `history` argument (its cache key isolates the group), `official`
is the official-status cache, `now` the wall clock. -/
def loadGroupDashboardData (allConfigs : List ProviderConfig)
    (targetGroupName : String) (history : HistorySnapshot)
    (official : ProviderType → Option OfficialStatusResult)
    (pollIntervalMs : Nat) (pollIntervalLabel : String) (now : Nat) :
    Option GroupDashboardData :=
  let isTargetUngrouped := targetGroupName = UNGROUPED_KEY
  let groupConfigs := allConfigs.filter (groupFilter targetGroupName)
  if groupConfigs.isEmpty then none
  else
    let maintenanceConfigs := groupConfigs.filter (fun cfg => cfg.is_maintenance)
    let providerTimelines := buildProviderTimelines history maintenanceConfigs official now
    let allEntries :=
      List.insertionSort byCheckedAtDesc (providerTimelines.flatMap (fun t => t.items))
    let lastUpdated := allEntries.head?.map (fun e => e.checkedAt)
    some { groupName := targetGroupName
           displayName := if isTargetUngrouped then UNGROUPED_DISPLAY_NAME else targetGroupName
           providerTimelines := providerTimelines
           lastUpdated := lastUpdated
           total := providerTimelines.length
           pollIntervalLabel := pollIntervalLabel
           pollIntervalMs := pollIntervalMs
           generatedAt := now }

/-- The JSON body of the group route's response. -/
inductive GroupRouteBody
  | payload (data : GroupDashboardData)
  | error (msg : String)
deriving DecidableEq

/-- The `GET` handler of `app/api/group/[groupName]/route.ts`, applied to
the aggregator's result: 404 with the error body when it is null,
otherwise 200 with the data. -/
def groupRouteGET (data : Option GroupDashboardData) : Nat × GroupRouteBody :=
  match data with
  | none => (404, .error ("分组不存在或没有配置"))
  | some d => (200, .payload d)

/-- Refinement-side predicate, following the claim's words: a config
matches the requested group when its `groupName` equals it, the sentinel
`__ungrouped__` matching configs whose `groupName` is absent. -/
def specGroupMatches (targetGroupName : String) (config : ProviderConfig) : Prop :=
  if targetGroupName = UNGROUPED_KEY then config.groupName = none
  else config.groupName = some targetGroupName

instance (t : String) (c : ProviderConfig) : Decidable (specGroupMatches t c) := by
  unfold specGroupMatches
  split <;> infer_instance

end CheckCx.GroupData

namespace CheckCx.History

/-- Spec-side predicate: the list is *strictly* descending by `checkedAt`
(consecutive entries strictly decrease). -/
def strictlyDescendingBy : List CheckResult → Bool
  | a :: b :: rest => decide (b.checkedAt < a.checkedAt) && strictlyDescendingBy (b :: rest)
  | _ => true

/-- Two rows for the same config with the same `checked_at`, as the
history table may contain. -/
def dupTimeRows : List RpcHistoryRow :=
  [{ config_id := "a", status := .operational, latency_ms := some 10,
     ping_latency_ms := none, checked_at := 100, message := some ("first"),
     name := "A", type := .openai, model := "m", endpoint := none,
     group_name := none },
   { config_id := "a", status := .operational, latency_ms := some 20,
     ping_latency_ms := none, checked_at := 100, message := some ("second"),
     name := "A", type := .openai, model := "m", endpoint := none,
     group_name := none }]

end CheckCx.History

namespace CheckCx.AnthropicStatus

/-- Spec-side: a component counts as affected when its lowercased status
is not `operational`. -/
def compAffected (c : AnthropicComponent) : Bool :=
  lowerStr c.status ≠ "operational"

/-- Spec-side: the component forces `down` (status contains `outage` or
`down`, or equals `major_outage`). -/
def compForcesDown (c : AnthropicComponent) : Bool :=
  compAffected c &&
    (containsSubStr (lowerStr c.status) ("outage") ||
     containsSubStr (lowerStr c.status) ("down") ||
     lowerStr c.status = "major_outage")

/-- Spec-side: the component forces at least `degraded` (non-operational,
not a down-forcing status, and containing `degraded` or equal to
`degraded_performance`). -/
def compForcesDegraded (c : AnthropicComponent) : Bool :=
  compAffected c && !compForcesDown c &&
    (containsSubStr (lowerStr c.status) ("degraded") ||
     lowerStr c.status = "degraded_performance")

/-- Spec-side: the names of all affected components, in order. -/
def affectedOf (comps : List AnthropicComponent) : List String :=
  (comps.filter compAffected).map (fun c => c.name)

/-- A summary with a healthy indicator but one component under
maintenance, matching neither per-component override. -/
def maintenanceSummary : AnthropicSummaryResponse :=
  { components := [{ name := "API", status := "under_maintenance" }]
    status := { indicator := "none", description := "All Systems Operational" } }

end CheckCx.AnthropicStatus

namespace CheckCx

open CheckCx.StreamCheck

/-! ### Fixtures used by concrete evaluations -/

/-- A concrete provider config for concrete evaluations. -/
def sampleConfig : ProviderConfig :=
  { id := "cfg-1"
    name := "Sample"
    type := .openai
    endpoint := some ("https://api.example.com/v1/chat/completions")
    model := "gpt-4o-mini"
    apiKey := "k"
    is_maintenance := false }

/-- Concrete stream-check params. -/
def sampleParams : StreamCheckParams :=
  { url := "https://api.example.com/v1/chat/completions" }

/-- A concrete `extractMessage` collaborator that finds nothing. -/
def noExtract : String → Option String := fun _ => none

/-! ### C1 — latency/status relationship of probe results -/

/-- C1 (counterexample): the claim "status = failed ⇒ latencyMs = null"
fails on `runStreamCheck`: a non-2xx HTTP response (here status 500 after
123 ms) produces `status = failed` with `latencyMs = 123`, not null. -/
theorem runStreamCheck_failed_with_latency_counterexample :
    (runStreamCheck sampleConfig sampleParams (.httpError 500 ("") 123)
        (some 40) 1000 noExtract).status = HealthStatus.failed ∧
    (runStreamCheck sampleConfig sampleParams (.httpError 500 ("") 123)
        (some 40) 1000 noExtract).latencyMs = some 123 ∧
    (some 123 : Option Nat) ≠ none := by
  refine ⟨rfl, rfl, by decide⟩

/-- C1 (amended): for every `runStreamCheck` outcome, `latencyMs = null`
implies `status = failed` (so null latency occurs only on failed probe
records, besides synthesized maintenance records), while `status = failed`
has `latencyMs = null` exactly unless the failure is a non-2xx HTTP
response, in which case `latencyMs` is the elapsed time to that response. -/
theorem runStreamCheck_latency_null_iff_thrown (config : ProviderConfig)
    (params : StreamCheckParams) (outcome : FetchOutcome)
    (ping : Option Nat) (now : Nat) (em : String → Option String) :
    ((runStreamCheck config params outcome ping now em).latencyMs = none →
      (runStreamCheck config params outcome ping now em).status = HealthStatus.failed) ∧
    ((runStreamCheck config params outcome ping now em).status = HealthStatus.failed →
      (runStreamCheck config params outcome ping now em).latencyMs = none ∨
        ∃ st body e, outcome = FetchOutcome.httpError st body e ∧
          (runStreamCheck config params outcome ping now em).latencyMs = some e) := by
  cases outcome with
  | httpError st body e =>
    refine ⟨fun h => by simp [runStreamCheck] at h, fun _ => ?_⟩
    exact Or.inr ⟨st, body, e, rfl, rfl⟩
  | streamOk e =>
    constructor
    · intro h
      simp [runStreamCheck] at h
    · intro h
      simp [runStreamCheck] at h
      split at h <;> simp_all
  | thrown n m =>
    exact ⟨fun _ => rfl, fun _ => Or.inl rfl⟩

/-- C1 (witness for the amended theorem): at a thrown abort, null latency
concretely yields status failed. -/
theorem runStreamCheck_latency_null_iff_thrown_witness :
    (runStreamCheck sampleConfig sampleParams (.thrown ("AbortError") (""))
        none 0 noExtract).status = HealthStatus.failed :=
  (runStreamCheck_latency_null_iff_thrown sampleConfig sampleParams
    (.thrown ("AbortError") ("")) none 0 noExtract).1 rfl

/-! ### C2 — probe deadlines -/

/-- C2 (code bug): the OpenAI provider's `DEFAULT_TIMEOUT_MS` is 15 000 ms,
not the 45 000 ms deadline used by the generic stream check and the
Anthropic provider (despite its comment claiming consistency with them):
with a vendor that would first respond after 20 s, the OpenAI probe's
abort timer has already fired while a 45 s deadline would still be
waiting. -/
theorem openai_probe_deadline_is_15s :
    OpenAIProvider.DEFAULT_TIMEOUT_MS = 15000 ∧
    OpenAIProvider.DEFAULT_TIMEOUT_MS ≠ 45000 ∧
    StreamCheck.DEFAULT_TIMEOUT_MS = 45000 ∧
    AnthropicSdkProvider.DEFAULT_TIMEOUT_MS = 45000 ∧
    AnthropicLegacyProvider.DEFAULT_TIMEOUT_MS = 15000 ∧
    probeTimesOut OpenAIProvider.DEFAULT_TIMEOUT_MS 20000 = true ∧
    probeTimesOut StreamCheck.DEFAULT_TIMEOUT_MS 20000 = false ∧
    (runStreamCheck sampleConfig sampleParams (.thrown ("AbortError") (""))
        none 0 noExtract).message = "请求超时" := by
  refine ⟨rfl, by decide, rfl, rfl, rfl, by decide, by decide, rfl⟩

/-! ### C3 — success classification and messages -/

/-- C3: a successful streaming probe is `operational` with message
`流式响应正常 (N ms)` when the elapsed time is at most 6000 ms (the
threshold is inclusive), and `degraded` with message `响应成功但耗时 N ms`
when it exceeds 6000 ms. -/
theorem runStreamCheck_success_classification (config : ProviderConfig)
    (params : StreamCheckParams) (elapsedMs : Nat) (ping : Option Nat)
    (now : Nat) (em : String → Option String) :
    ((elapsedMs ≤ DEGRADED_THRESHOLD_MS →
      (runStreamCheck config params (.streamOk elapsedMs) ping now em).status =
          HealthStatus.operational ∧
      (runStreamCheck config params (.streamOk elapsedMs) ping now em).message =
          "流式响应正常 (" ++ toString elapsedMs ++ "ms)") ∧
    (DEGRADED_THRESHOLD_MS < elapsedMs →
      (runStreamCheck config params (.streamOk elapsedMs) ping now em).status =
          HealthStatus.degraded ∧
      (runStreamCheck config params (.streamOk elapsedMs) ping now em).message =
          "响应成功但耗时 " ++ toString elapsedMs ++ "ms") ∧
    ((runStreamCheck config params (.streamOk elapsedMs) ping now em).latencyMs =
        some elapsedMs)) := by
  by_cases h : elapsedMs ≤ DEGRADED_THRESHOLD_MS
  · refine ⟨fun _ => ⟨?_, ?_⟩, fun hlt => absurd h (not_le.mpr hlt), rfl⟩ <;>
      simp [runStreamCheck, h]
  · refine ⟨fun hle => absurd hle h, fun _ => ⟨?_, ?_⟩, rfl⟩ <;>
      simp [runStreamCheck, h]

/-- C3 (witness): at exactly 6000 ms the result is operational, at 6001 ms
degraded. -/
theorem runStreamCheck_success_classification_witness :
    (runStreamCheck sampleConfig sampleParams (.streamOk 6000) none 0 noExtract).status =
        HealthStatus.operational ∧
    (runStreamCheck sampleConfig sampleParams (.streamOk 6001) none 0 noExtract).status =
        HealthStatus.degraded :=
  ⟨((runStreamCheck_success_classification sampleConfig sampleParams 6000 none 0
      noExtract).1 (by decide)).1,
   ((runStreamCheck_success_classification sampleConfig sampleParams 6001 none 0
      noExtract).2.1 (by decide)).1⟩

/-! ### C10 — empty append batch -/

/-- C10: `SnapshotStore.append` with an empty batch issues no store
operation at all — no insert and no prune — so the stored history is
unchanged. -/
theorem append_empty_batch_no_ops :
    History.appendOps [] true = [] ∧ History.appendOps [] false = [] := by
  exact ⟨rfl, rfl⟩

end CheckCx

namespace CheckCx.HealthSnapshotService

/-! ### C4 — refresh path of `loadSnapshotForScope` -/

/-- C4 (counterexample): with a pending inflight refresh *and* a cache
entry still inside the freshness window (lastPingAt = 100, now = 150,
pollIntervalMs = 1000), the refresh path returns the cached history, not
the inflight's result — the freshness check precedes the inflight check,
contrary to the claim's order. -/
theorem refreshHistory_fresh_beats_inflight_counterexample :
    refreshHistory 1 150 1000
        { lastPingAt := 100, inflight := some [("a", [])], history := some [] } =
      RefreshOutcome.cachedHistory [] ∧
    RefreshOutcome.cachedHistory ([] : HistorySnapshot) ≠
      RefreshOutcome.awaitedInflight [("a", [])] ∧
    refreshResultValue
        (refreshHistory 1 150 1000
          { lastPingAt := 100, inflight := some [("a", [])], history := some [] })
        [] ≠ [("a", [])] := by
  refine ⟨rfl, by decide, by decide⟩

/-- C4 (amended): in the refresh path, the freshness window is checked
first — when `history` is present and `now - lastPingAt < pollIntervalMs`
the cached history is returned even if `inflight` is set; an inflight is
awaited only when the freshness check fails; a new inflight refresh is
installed only when neither holds (and an empty active-config scope
short-circuits to the empty snapshot). -/
theorem refreshHistory_decision (activeCount now poll : Nat)
    (entry : PingCacheEntry) :
    (activeCount = 0 →
      refreshHistory activeCount now poll entry = RefreshOutcome.emptySnap) ∧
    (activeCount ≠ 0 → ∀ h, entry.history = some h →
      (now : Int) - (entry.lastPingAt : Int) < (poll : Int) →
      refreshHistory activeCount now poll entry = RefreshOutcome.cachedHistory h) ∧
    (activeCount ≠ 0 →
      (entry.history = none ∨ ¬((now : Int) - (entry.lastPingAt : Int) < (poll : Int))) →
      ∀ p, entry.inflight = some p →
      refreshHistory activeCount now poll entry = RefreshOutcome.awaitedInflight p) ∧
    (activeCount ≠ 0 →
      (entry.history = none ∨ ¬((now : Int) - (entry.lastPingAt : Int) < (poll : Int))) →
      entry.inflight = none →
      refreshHistory activeCount now poll entry = RefreshOutcome.installedInflight) := by
  refine ⟨fun h0 => by simp [refreshHistory, h0], ?_, ?_, ?_⟩
  · intro hne h hh hfresh
    simp [refreshHistory, hne, hh, hfresh]
  · intro hne hdisj p hp
    rcases hdisj with hnone | hnf
    · simp [refreshHistory, hne, hnone, hp]
    · cases hh : entry.history with
      | none => simp [refreshHistory, hne, hh, hp]
      | some h => simp [refreshHistory, hne, hh, hnf, hp]
  · intro hne hdisj hinfl
    rcases hdisj with hnone | hnf
    · simp [refreshHistory, hne, hnone, hinfl]
    · cases hh : entry.history with
      | none => simp [refreshHistory, hne, hh, hinfl]
      | some h => simp [refreshHistory, hne, hh, hnf, hinfl]

/-- C4 (witness): with a stale entry and a pending inflight, the inflight
is awaited. -/
theorem refreshHistory_decision_witness :
    refreshHistory 1 50 10 { lastPingAt := 0, inflight := some [("b", [])], history := none } =
      RefreshOutcome.awaitedInflight [("b", [])] :=
  (refreshHistory_decision 1 50 10
      { lastPingAt := 0, inflight := some [("b", [])], history := none }).2.2.1
    (by decide) (Or.inl rfl) [("b", [])] rfl

end CheckCx.HealthSnapshotService

namespace CheckCx.HealthSnapshotService

/-! ### C5 — maintenance placeholders in `buildProviderTimelines` -/

/-- `attachOfficialStatus` only sets `officialStatus`; every other field
is unchanged. -/
theorem attachOfficialStatus_fields (official : ProviderType → Option OfficialStatusResult)
    (r : CheckResult) :
    (attachOfficialStatus official r).status = r.status ∧
    (attachOfficialStatus official r).latencyMs = r.latencyMs ∧
    (attachOfficialStatus official r).pingLatencyMs = r.pingLatencyMs ∧
    (attachOfficialStatus official r).message = r.message ∧
    (attachOfficialStatus official r).checkedAt = r.checkedAt := by
  cases ho : official r.type <;> simp [attachOfficialStatus, ho]

/-- C5: every maintenance config yields, whatever the history snapshot
holds for its id, a timeline in `buildProviderTimelines`'s output with
empty items and a synthesized latest of status `maintenance`, null
latencies, message `配置处于维护模式` and `checkedAt` the current time. -/
theorem buildProviderTimelines_maintenance (history : HistorySnapshot)
    (maintenanceConfigs : List ProviderConfig)
    (official : ProviderType → Option OfficialStatusResult) (now : Nat)
    (config : ProviderConfig) (hmem : config ∈ maintenanceConfigs) :
    ∃ t ∈ buildProviderTimelines history maintenanceConfigs official now,
      t.id = config.id ∧ t.items = [] ∧
      t.latest.status = HealthStatus.maintenance ∧
      t.latest.latencyMs = none ∧ t.latest.pingLatencyMs = none ∧
      t.latest.message = "配置处于维护模式" ∧ t.latest.checkedAt = now := by
  refine ⟨createMaintenanceTimeline official now config, ?_, rfl, rfl, ?_, ?_, ?_, ?_, ?_⟩
  · show createMaintenanceTimeline official now config ∈
      buildProviderTimelines history maintenanceConfigs official now
    unfold buildProviderTimelines
    refine (List.perm_insertionSort byTimelineNameLe _).mem_iff.mpr ?_
    exact List.mem_append_right _ (List.mem_map_of_mem _ hmem)
  · exact (attachOfficialStatus_fields official _).1
  · exact (attachOfficialStatus_fields official _).2.1
  · exact (attachOfficialStatus_fields official _).2.2.1
  · exact (attachOfficialStatus_fields official _).2.2.2.1
  · exact (attachOfficialStatus_fields official _).2.2.2.2

/-- C5 (witness): a concrete maintenance config produces its placeholder
timeline even though the history snapshot holds rows under its id. -/
theorem buildProviderTimelines_maintenance_witness :
    ∃ t ∈ buildProviderTimelines
        [("cfg-m", [{ id := "cfg-m", name := "M", type := ProviderType.anthropic,
                      endpoint := none, model := "c", status := HealthStatus.operational,
                      latencyMs := some 5, pingLatencyMs := none, checkedAt := 3,
                      message := "ok" }])]
        [{ id := "cfg-m", name := "M", type := ProviderType.anthropic,
           endpoint := none, model := "c", apiKey := "k", is_maintenance := true }]
        (fun _ => none) 77,
      t.id = "cfg-m" ∧ t.items = [] ∧
      t.latest.status = HealthStatus.maintenance ∧
      t.latest.latencyMs = none ∧ t.latest.pingLatencyMs = none ∧
      t.latest.message = "配置处于维护模式" ∧ t.latest.checkedAt = 77 :=
  buildProviderTimelines_maintenance
    [("cfg-m", [{ id := "cfg-m", name := "M", type := ProviderType.anthropic,
                  endpoint := none, model := "c", status := HealthStatus.operational,
                  latencyMs := some 5, pingLatencyMs := none, checkedAt := 3,
                  message := "ok" }])]
    [{ id := "cfg-m", name := "M", type := ProviderType.anthropic,
       endpoint := none, model := "c", apiKey := "k", is_maintenance := true }]
    (fun _ => none) 77
    { id := "cfg-m", name := "M", type := ProviderType.anthropic,
      endpoint := none, model := "c", apiKey := "k", is_maintenance := true }
    (by decide)

end CheckCx.HealthSnapshotService

namespace CheckCx.History

open CheckCx.HealthSnapshotService

/-! ### C6 — shape of `mapRowsToSnapshot` -/

/-- `pushRow` keeps every bucket non-empty. -/
theorem pushRow_buckets_ne_nil (acc : HistorySnapshot) (id : String) (r : CheckResult)
    (hacc : ∀ q ∈ acc, q.2 ≠ []) :
    ∀ q ∈ pushRow acc id r, q.2 ≠ [] := by
  induction acc with
  | nil =>
    intro q hq
    simp only [pushRow, List.mem_singleton] at hq
    subst hq
    simp
  | cons head rest ih =>
    intro q hq
    obtain ⟨k, l⟩ := head
    simp only [pushRow] at hq
    split at hq
    · rcases List.mem_cons.mp hq with h | h
      · subst h
        simp
      · exact hacc _ (List.mem_cons_of_mem _ h)
    · rcases List.mem_cons.mp hq with h | h
      · subst h
        exact hacc _ (List.mem_cons_self _ _)
      · exact ih (fun q hq => hacc _ (List.mem_cons_of_mem _ hq)) _ h

/-- Folding `pushRow` over rows keeps every bucket non-empty. -/
theorem foldl_pushRow_buckets_ne_nil (rows : List RpcHistoryRow) :
    ∀ acc : HistorySnapshot, (∀ q ∈ acc, q.2 ≠ []) →
    ∀ q ∈ rows.foldl (fun acc row => pushRow acc row.config_id (rowToResult row)) acc,
      q.2 ≠ [] := by
  induction rows with
  | nil => intro acc hacc q hq; exact hacc _ hq
  | cons row rest ih =>
    intro acc hacc q hq
    exact ih _ (pushRow_buckets_ne_nil acc row.config_id (rowToResult row) hacc) _ hq

/-- C6 (counterexample): two rows for the same config with equal
`checked_at` values produce a history list that is *not* strictly
descending by `checkedAt`. -/
theorem mapRowsToSnapshot_strict_desc_counterexample :
    ∃ p ∈ mapRowsToSnapshot dupTimeRows, strictlyDescendingBy p.2 = false := by
  decide

/-- C6 (amended): every id in the snapshot returned by the history fetch's
`mapRowsToSnapshot` has at least one entry, its list is sorted descending
(non-strictly: equal `checkedAt` values may repeat) and capped at 60. -/
theorem mapRowsToSnapshot_ring_shape (rows : List RpcHistoryRow) :
    ∀ p ∈ mapRowsToSnapshot rows,
      p.2 ≠ [] ∧ p.2.length ≤ MAX_POINTS_PER_PROVIDER ∧
      List.Sorted byCheckedAtDesc p.2 := by
  intro p hp
  unfold mapRowsToSnapshot at hp
  by_cases hr : rows.isEmpty
  · simp [hr] at hp
  · simp only [hr, Bool.false_eq_true, if_false, List.mem_map] at hp
    obtain ⟨q, hq, rfl⟩ := hp
    have hqne : q.2 ≠ [] := foldl_pushRow_buckets_ne_nil rows [] (by simp) q hq
    refine ⟨?_, ?_, ?_⟩
    · have hlen : (List.insertionSort byCheckedAtDesc q.2).length = q.2.length :=
        (List.perm_insertionSort _ _).length_eq
      intro h
      rcases List.take_eq_nil_iff.mp h with h60 | hnil
      · exact absurd h60 (by norm_num [MAX_POINTS_PER_PROVIDER])
      · exact hqne (List.length_eq_zero.mp (hlen ▸ List.length_eq_zero.mpr hnil))
    · simp [List.length_take]
    · exact List.Pairwise.sublist (List.take_sublist _ _)
        (List.sorted_insertionSort byCheckedAtDesc q.2)

/-- C6 (witness for the amended theorem): a concrete one-row fetch. -/
theorem mapRowsToSnapshot_ring_shape_witness :
    ("a", [rowToResult
      { config_id := "a", status := .operational, latency_ms := some 10,
        ping_latency_ms := none, checked_at := 100, message := some ("first"),
        name := "A", type := .openai, model := "m", endpoint := none,
        group_name := none }]).2 ≠ ([] : List CheckResult) :=
  (mapRowsToSnapshot_ring_shape
    [{ config_id := "a", status := .operational, latency_ms := some 10,
       ping_latency_ms := none, checked_at := 100, message := some ("first"),
       name := "A", type := .openai, model := "m", endpoint := none,
       group_name := none }]
    _ (by decide)).1

end CheckCx.History

namespace CheckCx.GroupData

/-! ### C8 — group filtering and the 404 path -/

/-- On configs normalized by the loader (`group_name || null`, so never
`some ""`), the code's falsy group filter coincides with the claim's
"absent groupName" reading of the ungrouped sentinel. -/
theorem groupFilter_eq_spec (target : String) (config : ProviderConfig)
    (h : config.groupName ≠ some ("")) :
    groupFilter target config = true ↔ specGroupMatches target config := by
  unfold groupFilter specGroupMatches
  split
  · cases hg : config.groupName with
    | none => simp
    | some s =>
      have : s ≠ "" := fun he => h (by rw [hg, he])
      simp [this]
  · simp

/-- The loader normalization really never yields `some ""`. -/
theorem mapConfigRow_groupName_ne_empty (row : ConfigLoader.CheckConfigRow) :
    (ConfigLoader.mapConfigRow row).groupName ≠ some ("") := by
  unfold ConfigLoader.mapConfigRow jsFalsyStr
  cases row.group_name with
  | none => simp
  | some s =>
    simp only
    split <;> simp_all

/-- C8: `loadGroupDashboardData` returns null exactly when no config
matches the requested group (the sentinel `__ungrouped__` matching configs
without a group), and then the group endpoint responds 404 with
`{"error":"分组不存在或没有配置"}`; otherwise it responds 200. -/
theorem loadGroupDashboardData_null_iff (allConfigs : List ProviderConfig)
    (target : String) (history : HistorySnapshot)
    (official : ProviderType → Option OfficialStatusResult)
    (pollIntervalMs : Nat) (pollIntervalLabel : String) (now : Nat)
    (hnorm : ∀ cfg ∈ allConfigs, cfg.groupName ≠ some ("")) :
    (loadGroupDashboardData allConfigs target history official pollIntervalMs
        pollIntervalLabel now = none ↔
      ¬ ∃ cfg ∈ allConfigs, specGroupMatches target cfg) ∧
    (groupRouteGET (loadGroupDashboardData allConfigs target history official
        pollIntervalMs pollIntervalLabel now) =
        (404, GroupRouteBody.error ("分组不存在或没有配置")) ↔
      loadGroupDashboardData allConfigs target history official pollIntervalMs
        pollIntervalLabel now = none) ∧
    (loadGroupDashboardData allConfigs target history official pollIntervalMs
        pollIntervalLabel now ≠ none →
      (groupRouteGET (loadGroupDashboardData allConfigs target history official
        pollIntervalMs pollIntervalLabel now)).1 = 200) := by
  have hfilter : loadGroupDashboardData allConfigs target history official pollIntervalMs
      pollIntervalLabel now = none ↔ allConfigs.filter (groupFilter target) = [] := by
    unfold loadGroupDashboardData
    by_cases he : (allConfigs.filter (groupFilter target)).isEmpty
    · simp [he, List.isEmpty_iff.mp he]
    · rw [Bool.not_eq_true] at he
      have hne : ¬ allConfigs.filter (groupFilter target) = [] := by
        intro h
        rw [h] at he
        simp at he
      simp [he, hne]
  have hmain : loadGroupDashboardData allConfigs target history official pollIntervalMs
      pollIntervalLabel now = none ↔ ¬ ∃ cfg ∈ allConfigs, specGroupMatches target cfg := by
    rw [hfilter]
    constructor
    · intro h ⟨cfg, hcfg, hspec⟩
      have hfil : groupFilter target cfg = true :=
        (groupFilter_eq_spec target cfg (hnorm cfg hcfg)).mpr hspec
      have : cfg ∈ allConfigs.filter (groupFilter target) :=
        List.mem_filter.mpr ⟨hcfg, hfil⟩
      simp [h] at this
    · intro hno
      by_contra hne
      obtain ⟨cfg, hcfg⟩ := List.exists_mem_of_ne_nil _ hne
      have := List.mem_filter.mp hcfg
      exact hno ⟨cfg, this.1, (groupFilter_eq_spec target cfg (hnorm cfg this.1)).mp this.2⟩
  refine ⟨hmain, ?_, ?_⟩
  · cases hd : loadGroupDashboardData allConfigs target history official pollIntervalMs
        pollIntervalLabel now <;> simp [groupRouteGET]
  · intro hne
    cases hd : loadGroupDashboardData allConfigs target history official pollIntervalMs
        pollIntervalLabel now with
    | none => exact absurd hd hne
    | some d => simp [groupRouteGET]

/-- C8 (witness): one config in group `g`; requesting `g` yields 200 and
requesting an unknown group yields the 404 error body. -/
theorem loadGroupDashboardData_null_iff_witness :
    (groupRouteGET (loadGroupDashboardData
        [{ id := "1", name := "N", type := ProviderType.openai, endpoint := none,
           model := "m", apiKey := "k", is_maintenance := false,
           groupName := some ("g") }]
        ("g") [] (fun _ => none) 60000 ("1 分钟") 5)).1 = 200 :=
  (loadGroupDashboardData_null_iff
      [{ id := "1", name := "N", type := ProviderType.openai, endpoint := none,
         model := "m", apiKey := "k", is_maintenance := false,
         groupName := some ("g") }]
      "g" [] (fun _ => none) 60000 ("1 分钟") 5 (by decide)).2.2 (by decide)

end CheckCx.GroupData

namespace CheckCx.AnthropicStatus

/-! ### C9 — parsing the Anthropic status summary -/

/-- One step of the component loop, expressed through the spec-side
component predicates. -/
theorem componentStep_eq (acc : List String × Bool × Bool) (c : AnthropicComponent) :
    componentStep acc c =
      (acc.1 ++ (if compAffected c then [c.name] else []),
       acc.2.1 || compForcesDown c,
       acc.2.2 || compForcesDegraded c) := by
  by_cases h1 : lowerStr c.status = "operational"
  · simp [componentStep, compAffected, compForcesDown, compForcesDegraded, h1]
  · by_cases h2 : (containsSubStr (lowerStr c.status) ("outage") ||
        containsSubStr (lowerStr c.status) ("down") ||
        lowerStr c.status = "major_outage") = true
    · simp [componentStep, compAffected, compForcesDown, compForcesDegraded, h1, h2]
    · by_cases h3 : (containsSubStr (lowerStr c.status) ("degraded") ||
          lowerStr c.status = "degraded_performance") = true
      · simp [componentStep, compAffected, compForcesDown, compForcesDegraded, h1, h2, h3]
      · simp [componentStep, compAffected, compForcesDown, compForcesDegraded, h1, h2, h3]

/-- The whole component loop, expressed through the spec-side predicates. -/
theorem foldl_componentStep (comps : List AnthropicComponent) :
    ∀ acc : List String × Bool × Bool,
      comps.foldl componentStep acc =
        (acc.1 ++ affectedOf comps,
         acc.2.1 || comps.any compForcesDown,
         acc.2.2 || comps.any compForcesDegraded) := by
  induction comps with
  | nil => intro acc; simp [affectedOf]
  | cons c rest ih =>
    intro acc
    rw [List.foldl_cons, componentStep_eq, ih]
    refine Prod.ext ?_ (Prod.ext ?_ ?_) <;>
      simp [affectedOf, List.filter_cons, Bool.or_assoc]
    split <;> simp

/-- The parsed status, as a decision tree over the indicator and the
spec-side component predicates. -/
theorem parseAnthropicSummary_status_eq (data : AnthropicSummaryResponse) (checkedAt : Nat) :
    (parseAnthropicSummary data checkedAt).status =
      (if lowerStr data.status.indicator = "none" ∧ affectedOf data.components = [] then
        OfficialHealthStatus.operational
      else if lowerStr data.status.indicator = "critical" ∨
          lowerStr data.status.indicator = "major" ∨
          data.components.any compForcesDown = true then .down
      else if lowerStr data.status.indicator = "minor" ∨
          data.components.any compForcesDegraded = true then .degraded
      else .unknown) := by
  simp only [parseAnthropicSummary, foldl_componentStep, List.nil_append,
    List.length_eq_zero, Bool.false_or]

/-- A down-forcing component is an affected component. -/
theorem any_down_affected (comps : List AnthropicComponent)
    (h : comps.any compForcesDown = true) : affectedOf comps ≠ [] := by
  obtain ⟨c, hc, hd⟩ := List.any_eq_true.mp h
  unfold compForcesDown at hd
  rw [Bool.and_eq_true] at hd
  have ha : compAffected c = true := hd.1
  have : c.name ∈ affectedOf comps :=
    List.mem_map_of_mem _ (List.mem_filter.mpr ⟨hc, ha⟩)
  exact List.ne_nil_of_mem this

/-- A degraded-forcing component is an affected component. -/
theorem any_degraded_affected (comps : List AnthropicComponent)
    (h : comps.any compForcesDegraded = true) : affectedOf comps ≠ [] := by
  obtain ⟨c, hc, hd⟩ := List.any_eq_true.mp h
  unfold compForcesDegraded at hd
  rw [Bool.and_eq_true, Bool.and_eq_true] at hd
  have ha : compAffected c = true := hd.1.1
  have : c.name ∈ affectedOf comps :=
    List.mem_map_of_mem _ (List.mem_filter.mpr ⟨hc, ha⟩)
  exact List.ne_nil_of_mem this

/-- C9 (counterexample): with indicator `none` and one component whose
status `under_maintenance` matches neither override, the parsed status is
`unknown`, not `operational` as the claim requires. -/
theorem parseAnthropicSummary_counterexample :
    (parseAnthropicSummary maintenanceSummary 0).status = OfficialHealthStatus.unknown ∧
    OfficialHealthStatus.unknown ≠ OfficialHealthStatus.operational := by
  decide

/-- C9 (amended): the parsed official status is `operational` exactly when
the indicator is `none` and every component is operational; `major`,
`critical`, or any component whose status contains `outage` (or `down`)
forces `down`; otherwise `minor` or any component containing `degraded`
gives `degraded` (so degraded components force at least degraded); an
indicator of `none` with a non-operational component matching neither
override yields `unknown`. -/
theorem parseAnthropicSummary_spec (data : AnthropicSummaryResponse) (checkedAt : Nat) :
    ((parseAnthropicSummary data checkedAt).status = OfficialHealthStatus.operational ↔
      (lowerStr data.status.indicator = "none" ∧ affectedOf data.components = [])) ∧
    ((lowerStr data.status.indicator = "critical" ∨
        lowerStr data.status.indicator = "major" ∨
        data.components.any compForcesDown = true) →
      (parseAnthropicSummary data checkedAt).status = OfficialHealthStatus.down) ∧
    (data.components.any compForcesDegraded = true →
      (parseAnthropicSummary data checkedAt).status = OfficialHealthStatus.degraded ∨
      (parseAnthropicSummary data checkedAt).status = OfficialHealthStatus.down) ∧
    ((lowerStr data.status.indicator = "minor" ∧
        data.components.any compForcesDown = false) →
      (parseAnthropicSummary data checkedAt).status = OfficialHealthStatus.degraded) ∧
    ((lowerStr data.status.indicator = "none" ∧ affectedOf data.components ≠ [] ∧
        data.components.any compForcesDown = false ∧
        data.components.any compForcesDegraded = false) →
      (parseAnthropicSummary data checkedAt).status = OfficialHealthStatus.unknown) := by
  rw [parseAnthropicSummary_status_eq data checkedAt]
  refine ⟨?_, ?_, ?_, ?_, ?_⟩
  · constructor
    · intro h
      by_contra hn
      rw [if_neg hn] at h
      split at h <;> simp_all
      split at h <;> simp_all
    · intro h
      rw [if_pos h]
  · intro h
    have hne : ¬(lowerStr data.status.indicator = "none" ∧ affectedOf data.components = []) := by
      rcases h with h | h | h
      · intro hc; rw [hc.1] at h; simp at h
      · intro hc; rw [hc.1] at h; simp at h
      · exact fun hc => any_down_affected _ h hc.2
    rw [if_neg hne, if_pos h]
  · intro h
    have haff := any_degraded_affected _ h
    have hne : ¬(lowerStr data.status.indicator = "none" ∧ affectedOf data.components = []) :=
      fun hc => haff hc.2
    rw [if_neg hne]
    by_cases hd : lowerStr data.status.indicator = "critical" ∨
        lowerStr data.status.indicator = "major" ∨
        data.components.any compForcesDown = true
    · rw [if_pos hd]; exact Or.inr rfl
    · rw [if_neg hd, if_pos (Or.inr h)]; exact Or.inl rfl
  · intro ⟨hm, hdown⟩
    have hne : ¬(lowerStr data.status.indicator = "none" ∧ affectedOf data.components = []) := by
      intro hc; rw [hc.1] at hm; simp at hm
    have hnd : ¬(lowerStr data.status.indicator = "critical" ∨
        lowerStr data.status.indicator = "major" ∨
        data.components.any compForcesDown = true) := by
      rw [hm, hdown]; simp
    rw [if_neg hne, if_neg hnd, if_pos (Or.inl hm)]
  · intro ⟨hn, haff, hdown, hdeg⟩
    have hne : ¬(lowerStr data.status.indicator = "none" ∧ affectedOf data.components = []) :=
      fun hc => haff hc.2
    have hnd : ¬(lowerStr data.status.indicator = "critical" ∨
        lowerStr data.status.indicator = "major" ∨
        data.components.any compForcesDown = true) := by
      rw [hn, hdown]; simp
    have hng : ¬(lowerStr data.status.indicator = "minor" ∨
        data.components.any compForcesDegraded = true) := by
      rw [hn, hdeg]; simp
    rw [if_neg hne, if_neg hnd, if_neg hng]

/-- C9 (witness for the amended theorem): a critical indicator concretely
parses to `down`. -/
theorem parseAnthropicSummary_spec_witness :
    (parseAnthropicSummary
        { components := []
          status := { indicator := "critical", description := "Major outage" } } 3).status =
      OfficialHealthStatus.down :=
  (parseAnthropicSummary_spec
      { components := []
        status := { indicator := "critical", description := "Major outage" } } 3).2.1
    (Or.inl (by decide))

end CheckCx.AnthropicStatus

namespace CheckCx.OpenAIProvider

/-! ### C7 — model-preference resolution -/

/-- No effort word contains a separator or a line terminator. -/
theorem effortWords_no_special : ∀ w ∈ effortWords, ∀ c ∈ w,
    isSep c = false ∧ isLineTerm c = false := by
  decide

/-- Lowercasing preserves separators. -/
theorem isSep_toLower (c : Char) (h : isSep c = true) :
    isSep (Char.toLower c) = true := by
  unfold isSep at h ⊢
  rw [Bool.or_eq_true] at h
  rcases h with h | h <;> rw [decide_eq_true_eq] at h <;> subst h <;> decide

/-- `effortOf` succeeds on (case variants of) effort words. -/
theorem effortOf_eq_some_of_mem (rest : List Char)
    (h : lowerChars rest ∈ effortWords) :
    effortOf rest = some (lowerChars rest) := by
  unfold effortOf
  rw [if_pos (List.elem_eq_true_of_mem h)]

/-- What `effortOf` returning a value means. -/
theorem effortOf_sound (rest e : List Char) (h : effortOf rest = some e) :
    lowerChars rest ∈ effortWords ∧ e = lowerChars rest := by
  unfold effortOf at h
  split at h
  · rename_i hc
    exact ⟨List.elem_iff.mp hc, (Option.some.inj h).symm⟩
  · cases h

/-- `effortOf` fails on any input containing a separator character. -/
theorem effortOf_none_of_sep_inside (b2 : List Char) (sep : Char) (eff : List Char)
    (hsep : isSep sep = true) :
    effortOf (b2 ++ sep :: eff) = none := by
  have hnc : ¬ (effortWords.elem (lowerChars (b2 ++ sep :: eff)) = true) := by
    intro hc
    have hmem : lowerChars (b2 ++ sep :: eff) ∈ effortWords := List.elem_iff.mp hc
    have hsepmem : Char.toLower sep ∈ lowerChars (b2 ++ sep :: eff) := by
      unfold lowerChars
      exact List.mem_map_of_mem _ (by simp)
    have hno := (effortWords_no_special _ hmem _ hsepmem).1
    rw [isSep_toLower sep hsep] at hno
    cases hno
  unfold effortOf
  rw [if_neg hnc]

/-- Soundness of the lazy directive scan: a successful match decomposes
the input into a line-terminator-free base, a separator, and an effort
word whose lowercase form is the captured effort. -/
theorem scanDirective_sound : ∀ (cs b e : List Char), scanDirective cs = some (b, e) →
    ∃ sep eff, cs = b ++ sep :: eff ∧ isSep sep = true ∧
      lowerChars eff ∈ effortWords ∧ e = lowerChars eff ∧
      ∀ c ∈ b, isLineTerm c = false := by
  intro cs
  induction cs with
  | nil =>
    intro b e h
    simp [scanDirective] at h
  | cons c rest ih =>
    intro b e h
    unfold scanDirective at h
    cases hE : (if isSep c then effortOf rest else none) with
    | some e0 =>
      rw [hE] at h
      by_cases hs : isSep c = true
      · rw [if_pos hs] at hE
        obtain ⟨hmem, he0⟩ := effortOf_sound rest e0 hE
        injection h with hpair
        injection hpair with h1 h2
        subst h2
        refine ⟨c, rest, by rw [← h1]; rfl, hs, hmem, ?_, ?_⟩
        · rw [← he0]
        · intro x hx
          rw [← h1] at hx
          cases hx
      · rw [if_neg hs] at hE
        cases hE
    | none =>
      rw [hE] at h
      by_cases hlt : isLineTerm c = true
      · rw [if_pos hlt] at h
        cases h
      · rw [if_neg hlt] at h
        cases hscan : scanDirective rest with
        | none =>
          rw [hscan] at h
          cases h
        | some p =>
          obtain ⟨b2, e2⟩ := p
          rw [hscan] at h
          injection h with hpair
          injection hpair with h1 h2
          subst h2
          obtain ⟨sep, eff, hcs, hsep, hmem, he, hnl⟩ := ih b2 e2 hscan
          refine ⟨sep, eff, ?_, hsep, hmem, he, ?_⟩
          · rw [← h1, hcs]
            rfl
          · intro x hx
            rw [← h1] at hx
            rcases List.mem_cons.mp hx with rfl | hx2
            · exact Bool.not_eq_true _ ▸ hlt
            · exact hnl x hx2

/-- Completeness of the lazy directive scan on any valid decomposition. -/
theorem scanDirective_complete : ∀ (b : List Char) (sep : Char) (eff : List Char),
    isSep sep = true → lowerChars eff ∈ effortWords →
    (∀ c ∈ b, isLineTerm c = false) →
    scanDirective (b ++ sep :: eff) = some (b, lowerChars eff) := by
  intro b
  induction b with
  | nil =>
    intro sep eff hsep hmem _
    rw [List.nil_append]
    unfold scanDirective
    rw [if_pos hsep, effortOf_eq_some_of_mem eff hmem]
  | cons c b2 ih =>
    intro sep eff hsep hmem hnl
    rw [List.cons_append]
    unfold scanDirective
    have h1 : (if isSep c then effortOf (b2 ++ sep :: eff) else none) = none := by
      by_cases hc : isSep c = true
      · rw [if_pos hc]
        exact effortOf_none_of_sep_inside b2 sep eff hsep
      · rw [if_neg hc]
    rw [h1]
    have h2 : ¬ isLineTerm c = true := by
      rw [hnl c (List.mem_cons_self c _)]
      simp
    rw [if_neg h2, ih sep eff hsep hmem (fun x hx => hnl x (List.mem_cons_of_mem c hx))]

end CheckCx.OpenAIProvider

namespace CheckCx.OpenAIProvider

/-- C7 (counterexample): for model `"@high"` the claim says the
transmitted model is the suffix-stripped string `""`; the code falls back
to the whole trimmed model when stripping leaves an empty base, so it
transmits `"@high"` (with effort `high`). And for the hint case the claim
says the model is transmitted unchanged, but `" o3 "` is transmitted
trimmed, as `"o3"`. -/
theorem resolveModelPreferences_empty_base_counterexample :
    (resolveModelPreferences ("@high") = ("@high", some ("high")) ∧
      ("@high" : String) ≠ "") ∧
    (resolveModelPreferences (" o3 ") = ("o3", some ("medium")) ∧
      (" o3 " : String) ≠ "o3") := by
  decide

/-- C7 (amended): writing `t` for the trimmed model, if `t` decomposes as
`base ++ sep :: eff` with `sep ∈ {@, #}` and `eff` an effort word
(case-insensitively; the base free of line terminators, which `.` cannot
match), the transmitted model is the *trimmed* base — or all of `t` when
the trimmed base is empty — with the normalized effort (`mini`→`minimal`);
with no such directive, a reasoning-model hint match sends `medium` with
`t` transmitted; otherwise the effort is omitted and `t` is transmitted
(the original model when it is all whitespace). -/
theorem resolveModelPreferences_spec (model : String) :
    (∀ base sep eff, trimChars model.toList = base ++ sep :: eff →
      isSep sep = true → lowerChars eff ∈ effortWords →
      (∀ c ∈ base, isLineTerm c = false) →
      resolveModelPreferences model =
        (String.mk (if (trimChars base).isEmpty then trimChars model.toList
            else trimChars base),
         some (aliasLookup (lowerChars eff)))) ∧
    ((¬ ∃ base sep eff, trimChars model.toList = base ++ sep :: eff ∧
        isSep sep = true ∧ lowerChars eff ∈ effortWords ∧
        ∀ c ∈ base, isLineTerm c = false) →
      (reasoningHint (String.mk (trimChars model.toList)) = true →
        resolveModelPreferences model =
          (String.mk (trimChars model.toList), some ("medium"))) ∧
      (reasoningHint (String.mk (trimChars model.toList)) = false →
        resolveModelPreferences model =
          (if (trimChars model.toList).isEmpty then model
           else String.mk (trimChars model.toList), none))) := by
  constructor
  · intro base sep eff hdec hsep hmem hnl
    have hscan : scanDirective (trimChars model.toList) = some (base, lowerChars eff) := by
      rw [hdec]
      exact scanDirective_complete base sep eff hsep hmem hnl
    have hne : ¬ (trimChars model.toList).isEmpty = true := by
      rw [hdec]
      simp [List.isEmpty_iff]
    unfold resolveModelPreferences
    rw [if_neg hne, hscan]
  · intro hno
    have hscan : scanDirective (trimChars model.toList) = none := by
      cases hs : scanDirective (trimChars model.toList) with
      | none => rfl
      | some p =>
        obtain ⟨b, e⟩ := p
        obtain ⟨sep, eff, hcs, hsep, hmem, _, hnl⟩ := scanDirective_sound _ b e hs
        exact absurd ⟨b, sep, eff, hcs, hsep, hmem, hnl⟩ hno
    constructor
    · intro hh
      have hne : ¬ (trimChars model.toList).isEmpty = true := by
        intro hemp
        rw [List.isEmpty_iff] at hemp
        rw [hemp] at hh
        have hf : reasoningHint (String.mk []) = false := by decide
        rw [hf] at hh
        cases hh
      unfold resolveModelPreferences
      rw [if_neg hne, hscan, if_pos hh]
    · intro hh
      by_cases hemp : (trimChars model.toList).isEmpty = true
      · unfold resolveModelPreferences
        rw [if_pos hemp, if_pos hemp]
      · have hh2 : reasoningHint (String.mk (trimChars model.data)) = false := hh
        unfold resolveModelPreferences
        rw [if_neg hemp, hscan, if_neg (by simp [hh2]), if_neg hemp]

/-- C7 (witness for the amended theorem): `"gpt-5.1-codex@HIGH"` resolves
to model `"gpt-5.1-codex"` with effort `"high"` via the directive branch. -/
theorem resolveModelPreferences_spec_witness :
    resolveModelPreferences ("gpt-5.1-codex@HIGH") = ("gpt-5.1-codex", some ("high")) := by
  have h := (resolveModelPreferences_spec ("gpt-5.1-codex@HIGH")).1
    ("gpt-5.1-codex".toList) '@' ("HIGH".toList)
    (by decide) (by decide) (by decide) (by decide)
  exact h.trans (by decide)

end CheckCx.OpenAIProvider
